import Mathlib

set_option maxRecDepth 100000

/-!
Verification of the response-refinement extension (src/index.js).

The relevant parts of the JavaScript source are shallowly embedded below:
object literals become structures, `Object.entries` iteration becomes
iteration over association lists in insertion order, and the awaited
external generation call `generateQuietPrompt` becomes an explicit
function argument `gen : String → Except ε String` (`Except.error`
standing for a thrown/rejected promise).  `refineResponse` is
instrumented to also return, in order, the list of prompts passed to
the generation call, so that claims about which calls happen are
statable.
-/

namespace ResponseRefinement

/-- An instruction block, as stored in `extensionSettings.instructionBlocks`
(src/index.js lines 12-48): `{ label, content, enabled }`. -/
structure InstructionBlock where
  label : String
  content : String
  enabled : Bool
deriving Repr, DecidableEq

/-- One entry of a step's `instructions` array: `{ id, enabled }`
(src/index.js lines 54-59). -/
structure InstructionRef where
  id : String
  enabled : Bool
deriving Repr, DecidableEq

/-- A refinement step, as stored in `extensionSettings.refinementSteps`
(src/index.js lines 50-70): `{ label, enabled, instructions }`. -/
structure RefinementStep where
  label : String
  enabled : Bool
  instructions : List InstructionRef
deriving Repr, DecidableEq

/-- The extension settings object (src/index.js lines 72-76).  JavaScript
objects keep string-keyed properties in insertion order, so the two maps
are embedded as association lists in that order. -/
structure Settings where
  enabled : Bool
  instructionBlocks : List (String × InstructionBlock)
  refinementSteps : List (String × RefinementStep)
deriving Repr, DecidableEq

/-- A character stripped by JavaScript's `String.prototype.trim`, for the
characters that can actually occur here: space, tab, newline, carriage
return, form feed, vertical tab. -/
def isJsWhitespace (c : Char) : Bool :=
  c = ' ' || c = '\t' || c = '\n' || c = '\r' || c = '\x0c' || c = '\x0b'

/-- JavaScript's `String.prototype.trim`: drop leading and trailing
whitespace. -/
def jsTrim (s : String) : String :=
  String.mk (((s.data.dropWhile isJsWhitespace).reverse.dropWhile
    isJsWhitespace).reverse)

/-- `extensionSettings.instructionBlocks[id]`: property lookup on the
instruction-blocks object. -/
def lookupBlock (blocks : List (String × InstructionBlock)) (id : String) :
    Option InstructionBlock :=
  (blocks.find? (fun p => p.1 == id)).map Prod.snd

/-- The combined instruction text of a step (src/index.js lines 191-194):
keep the refs where `inst.enabled && instructionBlocks[inst.id]?.enabled`,
take each referenced block's `content`, and `join('\n\n')`. -/
def combinedInstructions (blocks : List (String × InstructionBlock))
    (step : RefinementStep) : String :=
  String.intercalate "\n\n"
    (step.instructions.filterMap (fun inst =>
      match lookupBlock blocks inst.id with
      | some b => if inst.enabled && b.enabled then some b.content else none
      | none => none))

/-- The system message built for a step (src/index.js line 204). -/
def systemMessage (instructions : String) : String :=
  "You are a response refinement agent. Your task is to refine the following response according to these instructions:\n\n"
    ++ instructions
    ++ "\n\nProvide your refined version of the response, or return the original if it already meets all requirements."

/-- The full prompt passed to `generateQuietPrompt` (src/index.js
lines 209-211): the system message followed by the current response. -/
def buildPrompt (instructions current : String) : String :=
  systemMessage instructions ++ "\n\nOriginal response:\n" ++ current

/-- One iteration of the `for` loop of `refineResponse` (src/index.js
lines 180-223) acting on the working text `currentResponse`.  Returns the
new working text and the prompts passed to the generation call (one if the
call was made, none if the step was skipped).  A disabled step is skipped
by `continue` (line 181); a step whose combined instruction text is falsy,
i.e. the empty string, is skipped (line 196); otherwise the generation
call is made, a thrown error is caught leaving the working text unchanged
(lines 219-222), and a result that is truthy and truthy after `trim()`
replaces the working text by its trimmed value (lines 213-218). -/
def runStep {ε : Type} (gen : String → Except ε String)
    (blocks : List (String × InstructionBlock))
    (current : String) (step : RefinementStep) : String × List String :=
  if !step.enabled then (current, [])
  else
    let instructions := combinedInstructions blocks step
    if instructions = "" then (current, [])
    else
      let prompt := buildPrompt instructions current
      match gen prompt with
      | Except.ok r => (if jsTrim r = "" then current else jsTrim r, [prompt])
      | Except.error _ => (current, [prompt])

/-- The whole `for (const [stepId, step] of Object.entries(...))` loop of
`refineResponse`, threading the working text through the steps in store
order and collecting the prompts passed to the generation call. -/
def runSteps {ε : Type} (gen : String → Except ε String)
    (blocks : List (String × InstructionBlock)) :
    String → List (String × RefinementStep) → String × List String
  | current, [] => (current, [])
  | current, (_, step) :: rest =>
      let out := runStep gen blocks current step
      let tail := runSteps gen blocks out.1 rest
      (tail.1, out.2 ++ tail.2)

/-- `refineResponse(response)` (src/index.js lines 164-234), instrumented
with the ordered list of prompts passed to the generation call.  If the
master switch is off the input is returned at once (lines 168-171);
otherwise the loop runs over `refinementSteps` and the final working text
is returned (line 233). -/
def refineResponse {ε : Type} (gen : String → Except ε String)
    (settings : Settings) (response : String) : String × List String :=
  if !settings.enabled then (response, [])
  else runSteps gen settings.instructionBlocks response settings.refinementSteps

/-- The MESSAGE_RECEIVED event handler (src/index.js lines 417-432) acting
on the event's `data.message` payload.  Returns the payload after the
handler ran together with a flag recording whether the handler assigned to
`data.message` (line 428): the assignment happens only when the refined
response differs from the original payload (line 426), after the early
return when the extension is disabled (lines 419-422). -/
def messageReceivedHandler {ε : Type} (gen : String → Except ε String)
    (settings : Settings) (message : String) : String × Bool :=
  if !settings.enabled then (message, false)
  else
    let refined := (refineResponse gen settings message).1
    if refined ≠ message then (refined, true) else (message, false)

/-- `deleteInstructionBlock` (src/index.js lines 307-323): delete the block
with the given id from `instructionBlocks` and filter every step's
`instructions` list down to the refs whose `id` differs from it. -/
def deleteInstructionBlock (settings : Settings) (id : String) : Settings :=
  { settings with
    instructionBlocks := settings.instructionBlocks.filter (fun p => p.1 != id)
    refinementSteps := settings.refinementSteps.map (fun p =>
      (p.1, { p.2 with
              instructions := p.2.instructions.filter (fun inst => inst.id != id) })) }

/-- `defaultInstructionBlocks` (src/index.js lines 12-48), in source
(insertion) order. -/
def defaultInstructionBlocks : List (String × InstructionBlock) :=
  [("review_response",
    { label := "Review Response"
      content := "Review the previous response against these instructions and return either a modified version that is compliant or return the initial response if already compliant."
      enabled := true }),
   ("enhance_response",
    { label := "Enhance Response"
      content := "Enhance the initial response while maintaining all original elements, incorporating the requested additions and enhancements."
      enabled := true }),
   ("ensure_coherency",
    { label := "Ensure Coherency"
      content := "Review the response to ensure it is realistic within the story context and aligns with likely actions of referenced characters or entities."
      enabled := true }),
   ("ensure_compliance",
    { label := "Ensure Compliance"
      content := "Adhere to any instructions provided in the immediately previous user response."
      enabled := true }),
   ("ensure_user_autonomy",
    { label := "Ensure User Autonomy"
      content := "Do not alter or dictate the user character\'s behavior in any way."
      enabled := false }),
   ("enhance_detail",
    { label := "Enhance Detail"
      content := "Provide more vivid and descriptive detail throughout the response."
      enabled := true }),
   ("enhance_disgust",
    { label := "Enhance Disgust"
      content := "Enhance disgusting content to a more revolting level of descriptive detail and horror."
      enabled := true })]

/-- `defaultRefinementSteps` (src/index.js lines 50-70), in source order. -/
def defaultRefinementSteps : List (String × RefinementStep) :=
  [("cohesion_check",
    { label := "Cohesion Check"
      enabled := true
      instructions :=
        [{ id := "review_response", enabled := true },
         { id := "ensure_coherency", enabled := true },
         { id := "ensure_compliance", enabled := true },
         { id := "ensure_user_autonomy", enabled := false }] }),
   ("improve_detail",
    { label := "Improve Detail"
      enabled := true
      instructions :=
        [{ id := "enhance_response", enabled := true },
         { id := "enhance_detail", enabled := true },
         { id := "enhance_disgust", enabled := true }] })]

/-- `defaultSettings` (src/index.js lines 72-76). -/
def defaultSettings : Settings :=
  { enabled := true
    instructionBlocks := defaultInstructionBlocks
    refinementSteps := defaultRefinementSteps }

/-- A step of the spec's canonical configuration shape: an ordered sequence
of steps with inline instruction text (spec section 3). -/
structure CanonicalStep where
  label : String
  enabled : Bool
  instructions : String
deriving Repr, DecidableEq

/-- Modelled from the spec: the one-time migration of a legacy-shaped
persisted configuration (the mapping-of-named-steps cross-referencing a
mapping-of-named-instruction-blocks shape, which is exactly the shape
src/index.js stores) into the canonical ordered-sequence-of-steps shape.
No migration code is present under src/; the spec (sections 3 and 8) says
each migrated step's inline instruction content is the concatenation of
that step's enabled instruction blocks, which is the combination
src/index.js lines 191-194 performs at refinement time. -/
def migrate (legacy : Settings) : List CanonicalStep :=
  legacy.refinementSteps.map (fun p =>
    { label := p.2.label
      enabled := p.2.enabled
      instructions := combinedInstructions legacy.instructionBlocks p.2 })

/-- Modelled from the spec: the built-in defaults in canonical shape are
the migration of the source's `defaultSettings`. -/
def canonicalDefaults : List CanonicalStep :=
  migrate defaultSettings

/-- Modelled from the spec: `load()` applies the migration and substitutes
the built-in defaults when migration yields zero usable steps (spec
sections 3 and 8; the defaulting mirrors src/index.js lines 83-87, which
assign `defaultSettings` when the persisted object is empty). -/
def loadCanonical (legacy : Settings) : List CanonicalStep :=
  let m := migrate legacy
  if m = [] then canonicalDefaults else m

end ResponseRefinement

namespace ResponseRefinement

/-- A generation call that always succeeds with the same string. -/
def okGen (s : String) : String → Except Unit String := fun _ => Except.ok s

/-- A generation call that always throws. -/
def errGen : String → Except Unit String := fun _ => Except.error ()

/-- A one-block store used by concrete instances below. -/
def egBlocks : List (String × InstructionBlock) :=
  [("b1", { label := "B1", content := "Do the thing.", enabled := true })]

/-- The single step of `egSettings`. -/
def egStep : RefinementStep :=
  { label := "S1", enabled := true
    instructions := [{ id := "b1", enabled := true }] }

/-- A one-step configuration over `egBlocks`. -/
def egSettings : Settings :=
  { enabled := true
    instructionBlocks := egBlocks
    refinementSteps := [("s1", egStep)] }

/-- A disabled step is skipped by `continue`: the working text is unchanged
and no generation call is made. -/
theorem runStep_disabled {ε : Type} (gen : String → Except ε String)
    (blocks : List (String × InstructionBlock)) (current : String)
    (step : RefinementStep) (h : step.enabled = false) :
    runStep gen blocks current step = (current, []) := by
  simp [runStep, h]

/-- A step whose combined instruction text is the empty string is skipped:
the working text is unchanged and no generation call is made. -/
theorem runStep_empty_instructions {ε : Type} (gen : String → Except ε String)
    (blocks : List (String × InstructionBlock)) (current : String)
    (step : RefinementStep) (h : combinedInstructions blocks step = "") :
    runStep gen blocks current step = (current, []) := by
  cases hb : step.enabled <;> simp [runStep, hb, h]

/-- A run over steps that are all disabled leaves the working text
unchanged and makes no generation call. -/
theorem runSteps_all_disabled {ε : Type} (gen : String → Except ε String)
    (blocks : List (String × InstructionBlock)) (current : String)
    (steps : List (String × RefinementStep))
    (h : ∀ p ∈ steps, p.2.enabled = false) :
    runSteps gen blocks current steps = (current, []) := by
  induction steps with
  | nil => rfl
  | cons p rest ih =>
      have hstep : p.2.enabled = false := h p (List.mem_cons_self p rest)
      have hrest : ∀ q ∈ rest, q.2.enabled = false :=
        fun q hq => h q (List.mem_cons_of_mem p hq)
      calc runSteps gen blocks current (p :: rest)
          = runSteps gen blocks current ((p.1, p.2) :: rest) := rfl
        _ = (current, []) := by
            simp [runSteps, runStep_disabled gen blocks current p.2 hstep, ih hrest]

/-- C1: for every input text and every configuration whose master switch
`enabled` is false, `refineResponse` returns the input text unchanged and
the external generation call is never invoked. -/
theorem c1_master_switch_off_identity {ε : Type} (gen : String → Except ε String)
    (settings : Settings) (response : String) (h : settings.enabled = false) :
    refineResponse gen settings response = (response, []) := by
  simp [refineResponse, h]

/-- Witness for C1 at a concrete disabled configuration. -/
theorem c1_master_switch_off_identity_witness :
    refineResponse errGen { egSettings with enabled := false } "hello" =
      ("hello", []) :=
  c1_master_switch_off_identity errGen { egSettings with enabled := false }
    "hello" rfl

/-- String concatenation is associative (via the underlying character
lists). -/
theorem string_append_assoc (a b c : String) : a ++ b ++ c = a ++ (b ++ c) := by
  apply String.ext
  simp [String.data_append, List.append_assoc]

/-- C2: if the generation call for a step throws, the error is caught, the
working text is left unchanged, and the run continues with the remaining
steps; `refineResponse` still returns a result (no error propagates to the
caller): its value is the run of the remaining steps on the unchanged
text, with the failing step's prompt recorded first. -/
theorem c2_step_error_caught_continues {ε : Type} (gen : String → Except ε String)
    (settings : Settings) (text : String) (idA : String) (stepA : RefinementStep)
    (rest : List (String × RefinementStep)) (e : ε)
    (h1 : settings.enabled = true)
    (h2 : settings.refinementSteps = (idA, stepA) :: rest)
    (h3 : stepA.enabled = true)
    (h4 : combinedInstructions settings.instructionBlocks stepA ≠ "")
    (h5 : gen (buildPrompt (combinedInstructions settings.instructionBlocks stepA) text)
        = Except.error e) :
    refineResponse gen settings text =
      ((runSteps gen settings.instructionBlocks text rest).1,
        buildPrompt (combinedInstructions settings.instructionBlocks stepA) text ::
          (runSteps gen settings.instructionBlocks text rest).2) := by
  simp [refineResponse, h1, h2, runSteps, runStep, h3, h4, h5]

/-- A second instruction block used by the two-step instances below. -/
def egBlocks2 : List (String × InstructionBlock) :=
  [("b1", { label := "B1", content := "Do the thing.", enabled := true }),
   ("b2", { label := "B2", content := "Polish the thing.", enabled := true })]

/-- First step of the two-step instance. -/
def twoStepA : RefinementStep :=
  { label := "S1", enabled := true
    instructions := [{ id := "b1", enabled := true }] }

/-- Second step of the two-step instance. -/
def twoStepB : RefinementStep :=
  { label := "S2", enabled := true
    instructions := [{ id := "b2", enabled := true }] }

/-- A two-step configuration over `egBlocks2`. -/
def twoStepSettings : Settings :=
  { enabled := true
    instructionBlocks := egBlocks2
    refinementSteps := [("s1", twoStepA), ("s2", twoStepB)] }

/-- Witness for C2: the first step's generation call throws on a concrete
two-step configuration. -/
theorem c2_step_error_caught_continues_witness :
    refineResponse errGen twoStepSettings "t" =
      ((runSteps errGen twoStepSettings.instructionBlocks "t" [("s2", twoStepB)]).1,
        buildPrompt (combinedInstructions twoStepSettings.instructionBlocks twoStepA) "t" ::
          (runSteps errGen twoStepSettings.instructionBlocks "t" [("s2", twoStepB)]).2) :=
  c2_step_error_caught_continues errGen twoStepSettings "t" "s1" twoStepA
    [("s2", twoStepB)] () rfl rfl rfl (by decide) rfl

/-- C3: enabled steps execute sequentially in store order, each prompt is
built from the previous step's output: for two enabled steps A then B the
prompts passed to the generation call are A's prompt on the input text
followed by B's prompt on A's trimmed return value; and every prompt
contains the step's instruction text and the current working text,
delimited from each other by fixed non-empty framing text. -/
theorem c3_sequential_chaining {ε : Type} (gen : String → Except ε String)
    (settings : Settings) (text rA : String) (ia ib : String)
    (A B : RefinementStep)
    (h1 : settings.enabled = true)
    (h2 : settings.refinementSteps = [(ia, A), (ib, B)])
    (h3 : A.enabled = true) (h4 : B.enabled = true)
    (h5 : combinedInstructions settings.instructionBlocks A ≠ "")
    (h6 : combinedInstructions settings.instructionBlocks B ≠ "")
    (h7 : gen (buildPrompt (combinedInstructions settings.instructionBlocks A) text)
        = Except.ok rA)
    (h8 : jsTrim rA ≠ "") :
    (refineResponse gen settings text).2 =
      [buildPrompt (combinedInstructions settings.instructionBlocks A) text,
       buildPrompt (combinedInstructions settings.instructionBlocks B) (jsTrim rA)] ∧
    ∀ i c : String, ∃ pre mid : String,
      buildPrompt i c = pre ++ i ++ mid ++ c ∧ pre ≠ "" ∧ mid ≠ "" := by
  constructor
  · cases hB : gen (buildPrompt (combinedInstructions settings.instructionBlocks B)
        (jsTrim rA)) <;>
      simp [refineResponse, h1, h2, runSteps, runStep, h3, h4, h5, h6, h7, h8, hB]
  · intro i c
    refine ⟨"You are a response refinement agent. Your task is to refine the following response according to these instructions:\n\n",
      "\n\nProvide your refined version of the response, or return the original if it already meets all requirements.\n\nOriginal response:\n",
      ?_, by decide, by decide⟩
    show buildPrompt i c = _
    rw [buildPrompt, systemMessage]
    rw [string_append_assoc _ _ c, string_append_assoc _ _ c]
    rw [string_append_assoc _ _ ("\n\nOriginal response:\n" ++ c)]
    apply String.ext
    simp [String.data_append, List.append_assoc]

/-- Witness for C3 on the concrete two-step configuration with a
generation call that always returns an untrimmed refinement. -/
theorem c3_sequential_chaining_witness :
    (refineResponse (okGen " new ") twoStepSettings "t").2 =
      [buildPrompt (combinedInstructions twoStepSettings.instructionBlocks twoStepA) "t",
       buildPrompt (combinedInstructions twoStepSettings.instructionBlocks twoStepB)
         (jsTrim " new ")] ∧
    ∀ i c : String, ∃ pre mid : String,
      buildPrompt i c = pre ++ i ++ mid ++ c ∧ pre ≠ "" ∧ mid ≠ "" :=
  c3_sequential_chaining (okGen " new ") twoStepSettings "t" " new " "s1" "s2"
    twoStepA twoStepB rfl rfl rfl rfl (by decide) (by decide) rfl (by decide)

/-- C4: after a step's generation call succeeds, the working text is
replaced by the trimmed result when that is non-empty, and left unchanged
when the result trims to the empty string; the call is recorded either
way. -/
theorem c4_success_policy {ε : Type} (gen : String → Except ε String)
    (blocks : List (String × InstructionBlock)) (current : String)
    (step : RefinementStep) (r : String)
    (h1 : step.enabled = true)
    (h2 : combinedInstructions blocks step ≠ "")
    (h3 : gen (buildPrompt (combinedInstructions blocks step) current) = Except.ok r) :
    (jsTrim r ≠ "" →
      runStep gen blocks current step =
        (jsTrim r, [buildPrompt (combinedInstructions blocks step) current])) ∧
    (jsTrim r = "" →
      runStep gen blocks current step =
        (current, [buildPrompt (combinedInstructions blocks step) current])) := by
  constructor <;> intro h <;> simp [runStep, h1, h2, h3, h]

/-- Witness for C4: a concrete step whose generation call returns a
padded non-blank string. -/
theorem c4_success_policy_witness :
    runStep (okGen "  new  ") egBlocks "t"
      { label := "S1", enabled := true
        instructions := [{ id := "b1", enabled := true }] } =
      (jsTrim "  new  ",
        [buildPrompt
          (combinedInstructions egBlocks
            { label := "S1", enabled := true
              instructions := [{ id := "b1", enabled := true }] }) "t"]) :=
  (c4_success_policy (okGen "  new  ") egBlocks "t"
      { label := "S1", enabled := true
        instructions := [{ id := "b1", enabled := true }] } "  new  "
      rfl (by decide) rfl).1 (by decide)

/-- C7: with the master switch on but zero enabled steps, `refineResponse`
returns the input text unchanged and the generation call is never
invoked. -/
theorem c7_no_enabled_steps_identity {ε : Type} (gen : String → Except ε String)
    (settings : Settings) (response : String)
    (h : ∀ p ∈ settings.refinementSteps, p.2.enabled = false) :
    refineResponse gen settings response = (response, []) := by
  cases he : settings.enabled <;>
    simp [refineResponse, he,
      runSteps_all_disabled gen settings.instructionBlocks response
        settings.refinementSteps h]

/-- Witness for C7 at a concrete configuration whose only step is
disabled. -/
theorem c7_no_enabled_steps_identity_witness :
    refineResponse errGen
      { egSettings with
        refinementSteps :=
          [("s1", { label := "S1", enabled := false
                    instructions := [{ id := "b1", enabled := true }] })] }
      "t" = ("t", []) :=
  c7_no_enabled_steps_identity errGen
    { egSettings with
      refinementSteps :=
        [("s1", { label := "S1", enabled := false
                  instructions := [{ id := "b1", enabled := true }] })] }
    "t" (by decide)

/-- C5 counterexample: on the one-step configuration `egSettings` with
input text `" x "`, the single generation call receives `" x "` as the
current text and returns it unchanged, yet `refineResponse` returns the
trimmed `"x"`, not the original input: the code trims the generator's
return value, so identity of the generation call does not give identity of
the pipeline on untrimmed input. -/
theorem c5_untrimmed_input_counterexample :
    okGen " x " (buildPrompt (combinedInstructions egSettings.instructionBlocks egStep) " x ")
      = Except.ok " x " ∧
    (refineResponse (okGen " x ") egSettings " x ").2 =
      [buildPrompt (combinedInstructions egSettings.instructionBlocks egStep) " x "] ∧
    (refineResponse (okGen " x ") egSettings " x ").1 = "x" ∧
    "x" ≠ " x " :=
  ⟨rfl, by decide, by decide, by decide⟩

/-- If the input text is its own trim and every generation call on it
returns it unchanged, the whole run leaves the working text equal to the
input. -/
theorem runSteps_identity_on_trimmed {ε : Type} (gen : String → Except ε String)
    (blocks : List (String × InstructionBlock)) (text : String)
    (h0 : jsTrim text = text)
    (hg : ∀ instr, gen (buildPrompt instr text) = Except.ok text) :
    ∀ steps : List (String × RefinementStep),
      (runSteps gen blocks text steps).1 = text := by
  intro steps
  induction steps with
  | nil => rfl
  | cons p rest ih =>
      have hstep : (runStep gen blocks text p.2).1 = text := by
        cases hb : p.2.enabled
        · simp [runStep, hb]
        · by_cases hi : combinedInstructions blocks p.2 = ""
          · simp [runStep, hb, hi]
          · by_cases ht : jsTrim text = ""
            · simp [runStep, hb, hi, hg, ht]
            · simp [runStep, hb, hi, hg, ht, h0]
      calc (runSteps gen blocks text (p :: rest)).1
          = (runSteps gen blocks text ((p.1, p.2) :: rest)).1 := rfl
        _ = text := by simp [runSteps, hstep, ih]

/-- C5 (amended): for every input text that carries no leading or trailing
whitespace, if every step's generation call returns its input text
unchanged, then `refineResponse` returns the original input text
unchanged. -/
theorem c5_identity_on_compliant_text {ε : Type} (gen : String → Except ε String)
    (settings : Settings) (text : String)
    (h0 : jsTrim text = text)
    (hg : ∀ instr, gen (buildPrompt instr text) = Except.ok text) :
    (refineResponse gen settings text).1 = text := by
  cases he : settings.enabled <;>
    simp [refineResponse, he,
      runSteps_identity_on_trimmed gen settings.instructionBlocks text h0 hg
        settings.refinementSteps]

/-- Witness for amended C5 on the concrete one-step configuration. -/
theorem c5_identity_on_compliant_text_witness :
    (refineResponse (okGen "abc") egSettings "abc").1 = "abc" :=
  c5_identity_on_compliant_text (okGen "abc") egSettings "abc" (by decide)
    (fun _ => rfl)

/-- C6: a legacy-shaped persisted configuration is migrated into the
ordered sequence of steps whose instruction content is the concatenation
of that step's enabled instruction blocks; an empty/invalid legacy object
yields the built-in two-step defaults "Cohesion Check" and "Improve
Detail", whose contents concatenate exactly the enabled default blocks
(the disabled `ensure_user_autonomy` reference is left out). -/
theorem c6_load_migrates_or_defaults :
    (∀ legacy : Settings, legacy.refinementSteps ≠ [] →
        loadCanonical legacy = migrate legacy) ∧
    (∀ legacy : Settings, legacy.refinementSteps = [] →
        loadCanonical legacy = canonicalDefaults) ∧
    (∀ legacy : Settings,
        migrate legacy =
          legacy.refinementSteps.map (fun p =>
            { label := p.2.label
              enabled := p.2.enabled
              instructions := combinedInstructions legacy.instructionBlocks p.2 })) ∧
    canonicalDefaults =
      [{ label := "Cohesion Check", enabled := true
         instructions := "Review the previous response against these instructions and return either a modified version that is compliant or return the initial response if already compliant.\n\nReview the response to ensure it is realistic within the story context and aligns with likely actions of referenced characters or entities.\n\nAdhere to any instructions provided in the immediately previous user response." },
       { label := "Improve Detail", enabled := true
         instructions := "Enhance the initial response while maintaining all original elements, incorporating the requested additions and enhancements.\n\nProvide more vivid and descriptive detail throughout the response.\n\nEnhance disgusting content to a more revolting level of descriptive detail and horror." }] := by
  refine ⟨?_, ?_, fun _ => rfl, by decide⟩
  · intro legacy h
    have hm : migrate legacy ≠ [] := by
      simp [migrate, h]
    simp [loadCanonical, hm]
  · intro legacy h
    simp [loadCanonical, migrate, h]

/-- Witness for C6 applied to a concrete non-empty legacy configuration. -/
theorem c6_load_migrates_or_defaults_witness :
    loadCanonical egSettings = migrate egSettings :=
  c6_load_migrates_or_defaults.1 egSettings (by decide)

/-- A step over a blank-content block, for the C8 counterexample. -/
def blankStep : RefinementStep :=
  { label := "S", enabled := true
    instructions := [{ id := "bb", enabled := true }] }

/-- A configuration whose only step's effective instruction text is a
single space: blank but not empty. -/
def blankSettings : Settings :=
  { enabled := true
    instructionBlocks := [("bb", { label := "Blank", content := " ", enabled := true })]
    refinementSteps := [("s", blankStep)] }

/-- C8 counterexample: an enabled step whose effective instruction text is
a single space — blank but not empty — is NOT skipped: the generation call
is made for it (the code tests only JavaScript falsiness of the joined
string, which holds for the empty string alone). -/
theorem c8_blank_instructions_counterexample :
    combinedInstructions blankSettings.instructionBlocks blankStep = " " ∧
    jsTrim " " = "" ∧
    (refineResponse (okGen "r") blankSettings "t").2 = [buildPrompt " " "t"] ∧
    (refineResponse (okGen "r") blankSettings "t").2 ≠ [] :=
  ⟨by decide, by decide, by decide, by decide⟩

/-- C8 (amended): an enabled step whose effective instruction text is
exactly the empty string is skipped as a no-op: no generation call is made
for it, the working text is unchanged, and the run continues with the
remaining steps. -/
theorem c8_empty_instructions_skip {ε : Type} (gen : String → Except ε String)
    (blocks : List (String × InstructionBlock)) (current : String)
    (sid : String) (step : RefinementStep) (rest : List (String × RefinementStep))
    (h1 : step.enabled = true)
    (h2 : combinedInstructions blocks step = "") :
    runSteps gen blocks current ((sid, step) :: rest) =
      runSteps gen blocks current rest := by
  simp [runSteps, runStep_empty_instructions gen blocks current step h2]

/-- A step with no instruction refs at all: its combined instruction text
is empty. -/
def emptyInstrStep : RefinementStep :=
  { label := "E", enabled := true, instructions := [] }

/-- Witness for amended C8 on a concrete step with no enabled
instructions. -/
theorem c8_empty_instructions_skip_witness :
    runSteps errGen egBlocks "t" [("s0", emptyInstrStep)] =
      runSteps errGen egBlocks "t" [] :=
  c8_empty_instructions_skip errGen egBlocks "t" "s0" emptyInstrStep [] rfl
    (by decide)

/-- C9: the MESSAGE_RECEIVED handler assigns the pipeline's output to the
event's `message` payload exactly when that output differs from the
original payload; when they are equal (including the disabled early
return) the payload is left untouched and no assignment happens. -/
theorem c9_payload_written_iff_changed {ε : Type} (gen : String → Except ε String)
    (settings : Settings) (message : String) :
    messageReceivedHandler gen settings message =
      (if (refineResponse gen settings message).1 = message
       then (message, false)
       else ((refineResponse gen settings message).1, true)) := by
  cases he : settings.enabled
  · simp [messageReceivedHandler, refineResponse, he]
  · by_cases hc : (refineResponse gen settings message).1 = message
    · simp [messageReceivedHandler, he, hc]
    · simp [messageReceivedHandler, he, hc]

/-- Looking up any key other than the deleted one is unaffected by the
deletion filter. -/
theorem lookupBlock_filter_ne (blocks : List (String × InstructionBlock))
    (id bid : String) (h : bid ≠ id) :
    lookupBlock (blocks.filter (fun p => p.1 != id)) bid =
      lookupBlock blocks bid := by
  induction blocks with
  | nil => rfl
  | cons p rest ih =>
      by_cases hpid : p.1 = id
      · have hb1 : (p.1 == bid) = false := by
          rw [hpid]
          exact beq_eq_false_iff_ne.mpr (Ne.symm h)
        have hfid : (p.1 != id) = false := by simp [hpid]
        simpa [lookupBlock, List.filter_cons, List.find?_cons, hfid, hb1] using ih
      · have hfid : (p.1 != id) = true := by simp [hpid]
        by_cases hpb : p.1 = bid
        · have hb1 : (p.1 == bid) = true := beq_iff_eq.mpr hpb
          simp [lookupBlock, List.filter_cons, List.find?_cons, hfid, hb1]
        · have hb1 : (p.1 == bid) = false := beq_eq_false_iff_ne.mpr hpb
          simpa [lookupBlock, List.filter_cons, List.find?_cons, hfid, hb1] using ih

/-- C10: deleting an instruction block by id removes every reference to
that id from every step's instruction list, while every other instruction
block still looks up to its old value, every step keeps its key, label and
enabled flag, each step's instruction list is exactly its old list without
the deleted id, and the master switch is unchanged. -/
theorem c10_delete_block_invariants (settings : Settings) (id : String) :
    (∀ p ∈ (deleteInstructionBlock settings id).refinementSteps,
        ∀ inst ∈ p.2.instructions, inst.id ≠ id) ∧
    (∀ bid : String, bid ≠ id →
        lookupBlock (deleteInstructionBlock settings id).instructionBlocks bid =
          lookupBlock settings.instructionBlocks bid) ∧
    ((deleteInstructionBlock settings id).refinementSteps.map
        (fun p => (p.1, p.2.label, p.2.enabled)) =
      settings.refinementSteps.map (fun p => (p.1, p.2.label, p.2.enabled))) ∧
    ((deleteInstructionBlock settings id).refinementSteps.map
        (fun p => p.2.instructions) =
      settings.refinementSteps.map
        (fun p => p.2.instructions.filter (fun inst => inst.id != id))) ∧
    (deleteInstructionBlock settings id).enabled = settings.enabled := by
  refine ⟨?_, ?_, ?_, ?_, rfl⟩
  · intro p hp inst hinst
    simp only [deleteInstructionBlock, List.mem_map] at hp
    obtain ⟨q, _, hq⟩ := hp
    subst hq
    simp only [List.mem_filter, bne_iff_ne, ne_eq] at hinst
    exact hinst.2
  · intro bid hbid
    exact lookupBlock_filter_ne settings.instructionBlocks id bid hbid
  · simp [deleteInstructionBlock, List.map_map]
  · simp [deleteInstructionBlock, List.map_map]

/-- Witness for C10: on the concrete two-block configuration, deleting
block `b1` leaves the lookup of block `b2` unchanged. -/
theorem c10_delete_block_invariants_witness :
    lookupBlock (deleteInstructionBlock twoStepSettings "b1").instructionBlocks "b2" =
      lookupBlock twoStepSettings.instructionBlocks "b2" :=
  (c10_delete_block_invariants twoStepSettings "b1").2.1 "b2" (by decide)

end ResponseRefinement
